import Mathlib

/-!
Shallow embedding of the scheduling/availability core of the healthcare CRM
API (Go).  The embedded code lives in:

* `internal/domain/schedule/service.go` — effective-day resolution,
  effective-range resolution, business-hours validation;
* `internal/domain/appointment/service.go` — appointment create/update
  conflict detection and availability slot generation;
* `pkg/timeutil/timeutil.go` — `TimeOfDayMinutes`;
* `internal/domain/schedule/models/*.go` — `TimeRange`, `WorkDay`,
  `SpecialDay`, `EffectiveDay`;
* `pkg/errors/errors.go` — sentinel errors, `Wrap`, `DomainError`.

Modelling conventions.  Go's `(T, error)` returns become `Except Err T`.
External collaborators (the schedule store, the appointment store, the
patient provider, the schedule-validator adapter) are modelled as the
results their queries would return, passed in as `Except`-valued inputs:
binding such an input corresponds to performing the store call, so a
branch that never binds an input corresponds to never issuing the query.
Instants (`time.Time` values carrying a date) are integer seconds;
time-of-day values (`time.Time` anchored to the reference date, used by
the schedule models) are hour/minute/second triples.  Calendar dates are
serial day numbers.  Go's unstable `sort.Slice` with strict `Before` as
the comparator is modelled by `List.mergeSort` on the corresponding
non-strict key: both produce a permutation of the input that is sorted
by the key, which is the only behaviour the service's contract exposes.
-/

namespace HealthcareCRM

/-- Sentinel errors from `pkg/errors/errors.go` (`ErrInvalidInput`,
`ErrNotFound`, `ErrConflict`, `ErrInternal`). -/
inductive Sentinel where
  | invalidInput
  | notFound
  | conflict
  | internalErr
deriving DecidableEq, Repr

/-- Error values produced by the services.  `domain` is
`appErr.NewDomainError(code, msg)`; `wrap` is `appErr.Wrap(context, sentinel, _)`;
`store` stands for an I/O failure surfaced by an external store. -/
inductive Err where
  | domain (code : Sentinel) (msg : String)
  | wrap (context : String) (code : Sentinel)
  | store (msg : String)
deriving DecidableEq, Repr

/-- A time-of-day value: Go `time.Time` anchored to the reference date,
carrying only hour/minute/second semantics (spec §3, `TimeRange`). -/
structure Tod where
  hour : Nat
  minute : Nat
  second : Nat
deriving DecidableEq, Repr

/-- Seconds since midnight; `Tod.before` mirrors Go `time.Time.Before`
restricted to such values. -/
def Tod.seconds (t : Tod) : Nat :=
  t.hour * 3600 + t.minute * 60 + t.second

/-- `pkg/timeutil.TimeOfDayMinutes`: `t.Hour()*60 + t.Minute()` —
seconds are dropped. -/
def TimeOfDayMinutes (t : Tod) : Nat :=
  t.hour * 60 + t.minute

/-- `models.TimeRange` (schedule/models/time_range.go). -/
structure TimeRange where
  Start : Tod
  End : Tod
deriving DecidableEq, Repr

/-- `TimeRange.IsValid`: `tr.End.After(tr.Start)`. -/
def TimeRange.IsValid (tr : TimeRange) : Bool :=
  tr.Start.seconds < tr.End.seconds

/-- A calendar date, as a serial day number (Go `time.Time` at midnight in
the clinic zone; successive dates differ by one). -/
structure Date where
  serial : Int
deriving DecidableEq, Repr

/-- Go `date.Weekday()`: the library's native weekday, `0 = Sunday … 6 =
Saturday`; on serial day numbers this is a residue mod 7, with the serial
origin chosen on a Sunday. -/
def Date.Weekday (d : Date) : Int :=
  d.serial % 7

/-- `models.WorkDay`: one row of the weekly recurring schedule. -/
structure WorkDay where
  ID : Int
  DayOfWeek : Int
  Ranges : List TimeRange
  Active : Bool
deriving DecidableEq, Repr

/-- `models.SpecialDay`: one date-specific override row. -/
structure SpecialDay where
  ID : Int
  Date : Date
  Ranges : List TimeRange
  Active : Bool
deriving DecidableEq, Repr

/-- `models.EffectiveDay`: the resolved schedule for one date. -/
structure EffectiveDay where
  Date : Date
  Ranges : List TimeRange
  IsOverride : Bool
  Active : Bool
deriving DecidableEq, Repr

/-- The sort key of every `sort.Slice(ranges, less =
Ranges[i].Start.Before(Ranges[j].Start))` call in the schedule service:
the non-strict order corresponding to the strict `Before` comparator. -/
def rangeLE (a b : TimeRange) : Prop :=
  a.Start.seconds ≤ b.Start.seconds

instance : DecidableRel rangeLE := fun a b => Nat.decLe a.Start.seconds b.Start.seconds

instance : IsTotal TimeRange rangeLE := ⟨fun a b => Nat.le_total a.Start.seconds b.Start.seconds⟩

instance : IsTrans TimeRange rangeLE := ⟨fun _ _ _ => Nat.le_trans⟩

/-- `sort.Slice(ranges, less = Ranges[i].Start.Before(Ranges[j].Start))`,
modelled as a sort on the corresponding non-strict key (see header note
on sorting). -/
def sortRanges (rs : List TimeRange) : List TimeRange :=
  rs.insertionSort rangeLE

/-- The weekday conversion in `service.GetEffectiveDay`
(schedule/service.go:155-158): `weekday := int(date.Weekday()); if
weekday == 0 { weekday = 7 }`. -/
def effectiveWeekday (date : Date) : Int :=
  let weekday := date.Weekday
  if weekday = 0 then 7 else weekday

/-- `schedule.service.GetEffectiveDay` (schedule/service.go:123-185).
`specialsQ` is the result of `repo.GetSpecialHoursByDate(date)`, `workQ`
the result of `repo.GetAllWorkingHours()`; the latter is bound only on
the weekly-fallback path, exactly as the Go code only issues that query
there. -/
def GetEffectiveDay (specialsQ : Except Err (List SpecialDay))
    (workQ : Except Err (List WorkDay)) (date : Date) :
    Except Err EffectiveDay :=
  match specialsQ with
  | .error e => .error e
  | .ok specials =>
    match specials with
    | sd0 :: _ =>
      -- override path: collect ranges of active rows, in row order
      .ok { Date := sd0.Date
            Ranges := sortRanges
              ((specials.filter (fun sd => sd.Active)).flatMap (fun sd => sd.Ranges))
            IsOverride := true
            Active := specials.any (fun sd => sd.Active) }
    | [] =>
      let weekday := effectiveWeekday date
      match workQ with
      | .error e => .error e
      | .ok raw =>
        .ok { Date := date
              Ranges := sortRanges
                ((raw.filter (fun wd => wd.DayOfWeek = weekday && wd.Active)).flatMap
                  (fun wd => wd.Ranges))
              IsOverride := false
              Active := raw.any (fun wd => wd.DayOfWeek = weekday && wd.Active) }

/-- `schedule.service.GetEffectiveRange` (schedule/service.go:189-199):
`for d := start; !d.After(end); d = d.AddDate(0,0,1)` calling
`GetEffectiveDay` per date, aborting on the first error.  `specialsQ` is
the per-date special-hours query. -/
def GetEffectiveRange (specialsQ : Date → Except Err (List SpecialDay))
    (workQ : Except Err (List WorkDay)) (start stop : Date) :
    Except Err (List EffectiveDay) :=
  if start.serial > stop.serial then .ok []
  else
    match GetEffectiveDay (specialsQ start) workQ start with
    | .error e => .error e
    | .ok eff =>
      match GetEffectiveRange specialsQ workQ ⟨start.serial + 1⟩ stop with
      | .error e => .error e
      | .ok rest => .ok (eff :: rest)
termination_by (stop.serial + 1 - start.serial).toNat
decreasing_by simp only [not_lt] at *; omega

/-- `schedule.service.IsTimeRangeWithinWorkingHours`
(schedule/service.go:206-232).  The `start`/`end` arguments are the
proposed interval's endpoints as times-of-day in the clinic zone (the Go
code converts with `.In(ClinicLocation())` before taking
`TimeOfDayMinutes`). -/
def IsTimeRangeWithinWorkingHours (specialsQ : Except Err (List SpecialDay))
    (workQ : Except Err (List WorkDay)) (date : Date) (start stop : Tod) :
    Except Err Bool :=
  match GetEffectiveDay specialsQ workQ date with
  | .error e => .error e
  | .ok eff =>
    if !eff.Active then
      .error (.domain .conflict "El día está cerrado.")
    else
      let startTimeOfDay := TimeOfDayMinutes start
      let endTimeOfDay := TimeOfDayMinutes stop
      if eff.Ranges.any (fun r =>
          decide (startTimeOfDay ≥ TimeOfDayMinutes r.Start) &&
          decide (endTimeOfDay ≤ TimeOfDayMinutes r.End)) then
        .ok true
      else
        .error (.domain .conflict "El horario solicitado está fuera del horario laboral.")

/-- `adapters.ScheduleAdapter.GetEffectiveDay`
(internal/adapters/schedule.go:22-28): resolves the effective day and
returns its `Active` flag, propagating the resolver's error. -/
def ScheduleAdapterGetEffectiveDay (specialsQ : Except Err (List SpecialDay))
    (workQ : Except Err (List WorkDay)) (date : Date) : Except Err Bool :=
  match GetEffectiveDay specialsQ workQ date with
  | .error e => .error e
  | .ok effectiveDay => .ok effectiveDay.Active

/-- `models.Appointment` as consumed by the conflict detector: id, start
instant (`Fecha`, seconds), duration (`Duracion`, seconds). -/
structure Appointment where
  ID : Int
  Fecha : Int
  Duracion : Int
deriving DecidableEq, Repr

/-- `models.AppointmentCreateDTO` (the fields the service reads). -/
structure AppointmentCreateDTO where
  PacienteID : Option Int
  Nombre : Option String
  Fecha : Int
  Duracion : Int
deriving DecidableEq, Repr

/-- `models.AppointmentUpdateDTO` (the fields the service reads). -/
structure AppointmentUpdateDTO where
  Fecha : Option Int
  Duracion : Option Int
deriving DecidableEq, Repr

/-- `models.AvailabilitySlot`. -/
structure AvailabilitySlot where
  Start : Int
  End : Int
  Available : Bool
deriving DecidableEq, Repr

/-- The appointment service's collaborators (appointment repository,
patient provider, schedule-validator adapter), as the results their
calls return. -/
structure ApptEnv where
  patientExists : Int → Except Err Bool
  isWithinBusinessHours : Int → Int → Int → Except Err Bool
  getBetween : Int → Int → Except Err (List Appointment)
  getByID : Int → Except Err Appointment
  createRow : Except Err Int
  updateRow : Except Err Unit

/-- `timeutil.StartOfClinicDay`: midnight of the instant's day in the
clinic zone; on integer seconds with the day boundary at multiples of
86400, the floor to the day start. -/
def StartOfClinicDay (t : Int) : Int :=
  Int.fdiv t 86400 * 86400

/-- `const gapMinutes = 0` in both `service.Create`
(appointment/service.go:102) and `service.Update`
(appointment/service.go:230). -/
def gapMinutes : Int := 0

/-- The per-existing-appointment conflict condition of the loops in
`service.Create` (appointment/service.go:111-117) and `service.Update`
(appointment/service.go:239-248): with `exEnd := ex.Fecha + ex.Duracion`,
conflict iff `cStart < exEnd + gap` and `cEnd + gap > ex.Fecha`. -/
def overlapsWithGap (cStart cEnd : Int) (ex : Appointment) : Bool :=
  let exEnd := ex.Fecha + ex.Duracion
  let exEndWithGap := exEnd + gapMinutes * 60
  let cEndWithGap := cEnd + gapMinutes * 60
  decide (cStart < exEndWithGap) && decide (cEndWithGap > ex.Fecha)

/-- `appointment.service.Create` (appointment/service.go:73-120).
`NormalizeToClinic` only changes the representation of the instant, not
the instant itself, so it is the identity here. -/
def Create (env : ApptEnv) (appt : AppointmentCreateDTO) : Except Err Int :=
  if appt.PacienteID = none ∧ appt.Nombre = none then
    .error (.wrap "AppointmentService.Create(must provide paciente_id or nombre)" .invalidInput)
  else if appt.Duracion ≤ 0 then
    .error (.wrap "AppointmentService.Create(duracion must be > 0)" .invalidInput)
  else
    let patientCheck : Except Err Unit :=
      match appt.PacienteID with
      | none => .ok ()
      | some pid =>
        match env.patientExists pid with
        | .error e => .error e
        | .ok ex => if ex then .ok ()
            else .error (.wrap "AppointmentService.Create(patient not found)" .notFound)
    match patientCheck with
    | .error e => .error e
    | .ok _ =>
      let endTime := appt.Fecha + appt.Duracion
      match env.isWithinBusinessHours appt.Fecha appt.Fecha endTime with
      | .error e => .error e
      | .ok withinHours =>
        if !withinHours then
          .error (.wrap "AppointmentService.Create(time outside working hours)" .invalidInput)
        else
          let dayStart := StartOfClinicDay appt.Fecha
          match env.getBetween dayStart (dayStart + 86400) with
          | .error e => .error e
          | .ok existing =>
            if existing.any (overlapsWithGap appt.Fecha endTime) then
              .error (.domain .conflict "El horario solicitado traslapa con otras citas")
            else
              env.createRow

/-- `appointment.service.Update` (appointment/service.go:198-256).  The
`for … if ex.ID == id { continue } …` scan is the `any` over the
existing appointments with the record of identity `id` filtered out. -/
def Update (env : ApptEnv) (id : Int) (appt : AppointmentUpdateDTO) :
    Except Err Unit :=
  if id ≤ 0 then
    .error (.wrap "AppointmentService.Update(invalid id)" .invalidInput)
  else if (match appt.Duracion with | some d => decide (d ≤ 0) | none => false) then
    .error (.wrap "AppointmentService.Update(duracion must be > 0)" .invalidInput)
  else if appt.Fecha.isSome || appt.Duracion.isSome then
    match env.getByID id with
    | .error e => .error e
    | .ok current =>
      let newFecha := appt.Fecha.getD current.Fecha
      let newDuracion := appt.Duracion.getD current.Duracion
      let endTime := newFecha + newDuracion
      match env.isWithinBusinessHours newFecha newFecha endTime with
      | .error e => .error e
      | .ok withinHours =>
        if !withinHours then
          .error (.wrap "AppointmentService.Update(time outside working hours)" .invalidInput)
        else
          let dayStart := StartOfClinicDay newFecha
          match env.getBetween dayStart (dayStart + 86400) with
          | .error e => .error e
          | .ok existing =>
            if (existing.filter (fun ex => !decide (ex.ID = id))).any
                (overlapsWithGap newFecha endTime) then
              .error (.wrap "AppointmentService.Update(time slot conflict)" .conflict)
            else
              env.updateRow
  else
    env.updateRow

/-- The slot-emission loop of `service.GetAvailableSlots`
(appointment/service.go:170-193): step `currentTime` by `d` seconds;
stop when the next slot would end past `stop`; a slot is unavailable iff
it strictly overlaps some fetched appointment.  The loop is driven by a
fuel counter so that it is structurally recursive; the caller passes
`(stop - start).toNat + 1` fuel, which the loop can never exhaust
because the step `d` is at least one second there, so the fuel variant
computes exactly the Go loop. -/
def slotLoop (appointments : List Appointment) (d stop : Int) :
    Nat → Int → List AvailabilitySlot
  | 0, _ => []
  | fuel + 1, current =>
    if current < stop ∧ current + d ≤ stop then
      let slotEnd := current + d
      let available := !(appointments.any (fun appt =>
        decide (current < appt.Fecha + appt.Duracion) && decide (slotEnd > appt.Fecha)))
      { Start := current, End := slotEnd, Available := available } ::
        slotLoop appointments d stop fuel slotEnd
    else []

/-- `appointment.service.GetAvailableSlots` (appointment/service.go:146-196).
`isOpenQ` is the result of the schedule-validator adapter's
`GetEffectiveDay(date)` (the resolved day's `Active` flag, or the
resolver's error); `apptsQ` the result of `repo.GetBetween` over the
day.  The fixed window is 08:00–18:00 on `date`. -/
def GetAvailableSlots (isOpenQ : Except Err Bool)
    (apptsQ : Except Err (List Appointment)) (date : Date)
    (slotDuration : Int) : Except Err (List AvailabilitySlot) :=
  let d := if slotDuration ≤ 0 then 900 else slotDuration
  match isOpenQ with
  | .error e => .error e
  | .ok isOpen =>
    if !isOpen then .ok []
    else
      match apptsQ with
      | .error e => .error e
      | .ok appointments =>
        let dayBase := date.serial * 86400
        let startTime := dayBase + 8 * 3600
        let endTime := dayBase + 18 * 3600
        .ok (slotLoop appointments d endTime ((endTime - startTime).toNat + 1) startTime)

/-!  ### Concrete example data used to instantiate the theorems  -/

/-- The spec's holiday-closure scenario: the date's only special-day row
is inactive with no ranges. -/
def holidaySpecials : List SpecialDay :=
  [{ ID := 1, Date := ⟨4⟩, Ranges := [], Active := false }]

/-- An open weekly schedule row for Monday. -/
def mondayWorkDays : List WorkDay :=
  [{ ID := 2, DayOfWeek := 1,
     Ranges := [{ Start := ⟨9, 0, 0⟩, End := ⟨18, 0, 0⟩ }], Active := true }]

/-- Three special-day rows for one date: two active rows whose ranges are
out of order, and one inactive row carrying a range. -/
def multiRowSpecials : List SpecialDay :=
  [{ ID := 1, Date := ⟨0⟩,
     Ranges := [{ Start := ⟨14, 0, 0⟩, End := ⟨18, 0, 0⟩ }], Active := true },
   { ID := 2, Date := ⟨0⟩,
     Ranges := [{ Start := ⟨9, 0, 0⟩, End := ⟨13, 0, 0⟩ }], Active := true },
   { ID := 3, Date := ⟨0⟩,
     Ranges := [{ Start := ⟨20, 0, 0⟩, End := ⟨21, 0, 0⟩ }], Active := false }]

/-- One active special-day row with a single morning range. -/
def morningSpecials : List SpecialDay :=
  [{ ID := 1, Date := ⟨0⟩,
     Ranges := [{ Start := ⟨9, 0, 0⟩, End := ⟨13, 0, 0⟩ }], Active := true }]

/-- A stored day of appointments: the record about to be updated
(id 5, interval `[1000, 1900)`) and one other appointment
(`[2000, 2900)`). -/
def dayAppointments : List Appointment :=
  [{ ID := 5, Fecha := 1000, Duracion := 900 },
   { ID := 6, Fecha := 2000, Duracion := 900 }]

/-- A concrete appointment-service environment over `dayAppointments`
whose collaborator calls all succeed. -/
def apptEnvExample : ApptEnv :=
  { patientExists := fun _ => .ok true
    isWithinBusinessHours := fun _ _ _ => .ok true
    getBetween := fun _ _ => .ok dayAppointments
    getByID := fun i => .ok { ID := i, Fecha := 1000, Duracion := 900 }
    createRow := .ok 1
    updateRow := .ok () }

/-!  ## Theorems settling the claims  -/

/-- C3: the appointment overlap predicate used by `Create` and `Update` —
conflict iff `cStart < aEnd` and `cEnd > aStart`, with the zero-minute
gap — is symmetric in the two intervals; back-to-back intervals `[a,b)`
and `[b,c)` never conflict (in either role); and any two intervals
sharing an interior point always conflict. -/
theorem overlapsWithGap_strict_overlap :
    (∀ a b : Appointment,
      overlapsWithGap a.Fecha (a.Fecha + a.Duracion) b =
        overlapsWithGap b.Fecha (b.Fecha + b.Duracion) a) ∧
    (∀ s b d i : Int,
      overlapsWithGap s b { ID := i, Fecha := b, Duracion := d } = false) ∧
    (∀ s d c i : Int,
      overlapsWithGap (s + d) c { ID := i, Fecha := s, Duracion := d } = false) ∧
    (∀ s1 e1 s2 d2 x i : Int, s1 ≤ x → x < e1 → s2 ≤ x → x < s2 + d2 →
      overlapsWithGap s1 e1 { ID := i, Fecha := s2, Duracion := d2 } = true) := by
  refine ⟨?_, ?_, ?_, ?_⟩
  · intro a b
    simp only [overlapsWithGap, gapMinutes]
    norm_num [gt_iff_lt]
    rw [Bool.and_comm]
  · intro s b d i
    simp [overlapsWithGap, gapMinutes]
  · intro s d c i
    simp [overlapsWithGap, gapMinutes]
  · intro s1 e1 s2 d2 x i h1 h2 h3 h4
    simp only [overlapsWithGap, gapMinutes]
    norm_num [gt_iff_lt]
    omega

/-- Witness for C3 at the spec's concrete scenario, in minutes-as-units:
the candidate `[9:00, 9:30)` against an existing `[9:15, 9:45)`, sharing
the interior point 9:15, conflicts. -/
theorem overlapsWithGap_strict_overlap_witness :
    overlapsWithGap 540 570 { ID := 1, Fecha := 555, Duracion := 30 } = true :=
  overlapsWithGap_strict_overlap.2.2.2 540 570 555 30 555 1
    (by norm_num) (by norm_num) (by norm_num) (by norm_num)

/-- C4 counterexample: on the reversed range `start = day 1 > end = day 0`
the service silently succeeds with an empty list instead of failing with
an invalid-input error. -/
theorem getEffectiveRange_reversed_silent :
    GetEffectiveRange (fun _ => .ok []) (.ok []) ⟨1⟩ ⟨0⟩ =
      .ok ([] : List EffectiveDay) := by
  rw [GetEffectiveRange]
  norm_num

/-- C4 amended: for every start and end date with start after end,
`GetEffectiveRange` performs no per-date resolution and returns an empty
list with no error; no invalid-input validation is performed. -/
theorem getEffectiveRange_reversed_empty
    (specialsQ : Date → Except Err (List SpecialDay))
    (workQ : Except Err (List WorkDay)) (start stop : Date)
    (h : stop.serial < start.serial) :
    GetEffectiveRange specialsQ workQ start stop = .ok [] := by
  rw [GetEffectiveRange]
  simp [h]

/-- Witness for C4's amended theorem at the concrete reversed range
`(day 3, day 1)` with a nonempty store. -/
theorem getEffectiveRange_reversed_empty_witness :
    GetEffectiveRange (fun _ => .ok [{ ID := 1, Date := ⟨1⟩, Ranges := [], Active := false }])
      (.ok []) ⟨3⟩ ⟨1⟩ = .ok [] :=
  getEffectiveRange_reversed_empty _ _ ⟨3⟩ ⟨1⟩ (by norm_num)

/-- C9: for a date whose resolved effective day is inactive,
`GetAvailableSlots` (through the schedule adapter) returns an empty slot
list and no error, for every slot duration; the error outcome occurs
exactly when a store query fails, so an empty list is distinguishable
from a failure. -/
theorem getAvailableSlots_closed_day (specialsQ : Except Err (List SpecialDay))
    (workQ : Except Err (List WorkDay)) (date : Date)
    (apptsQ : Except Err (List Appointment)) (d : Int) (eff : EffectiveDay)
    (heff : GetEffectiveDay specialsQ workQ date = .ok eff)
    (hinact : eff.Active = false) :
    GetAvailableSlots (ScheduleAdapterGetEffectiveDay specialsQ workQ date)
      apptsQ date d = .ok [] ∧
    (∀ e, GetAvailableSlots (.error e) apptsQ date d = .error e) ∧
    (∀ e, GetAvailableSlots (.ok true) (.error e) date d = .error e) := by
  have hclosed : ScheduleAdapterGetEffectiveDay specialsQ workQ date = .ok false := by
    simp [ScheduleAdapterGetEffectiveDay, heff, hinact]
  refine ⟨?_, ?_, ?_⟩
  · rw [hclosed]
    simp [GetAvailableSlots]
  · intro e
    simp [GetAvailableSlots]
  · intro e
    simp [GetAvailableSlots]

/-- Witness for C9: the inactive holiday override resolves to a closed
day, and slot generation on that day returns the empty list even though
the day's appointment store holds rows. -/
theorem getAvailableSlots_closed_day_witness :
    GetAvailableSlots
      (ScheduleAdapterGetEffectiveDay (.ok holidaySpecials) (.ok mondayWorkDays) ⟨4⟩)
      (.ok dayAppointments) ⟨4⟩ 900 = .ok [] :=
  (getAvailableSlots_closed_day (.ok holidaySpecials) (.ok mondayWorkDays) ⟨4⟩
    (.ok dayAppointments) 900
    { Date := ⟨4⟩, Ranges := [], IsOverride := true, Active := false }
    rfl rfl).1

/-- C10: business-hours validation compares times at whole-minute
granularity — `TimeOfDayMinutes` drops seconds, the validator's verdict
is unchanged by the seconds carried on either endpoint, and concretely
an interval ending at 13:00:59 is accepted against a range closing at
13:00:00. -/
theorem validation_minute_granularity :
    (∀ h m s1 s2 : Nat, TimeOfDayMinutes ⟨h, m, s1⟩ = TimeOfDayMinutes ⟨h, m, s2⟩) ∧
    (∀ specialsQ workQ date (h1 m1 s1 s1' h2 m2 s2 s2' : Nat),
      IsTimeRangeWithinWorkingHours specialsQ workQ date ⟨h1, m1, s1⟩ ⟨h2, m2, s2⟩ =
        IsTimeRangeWithinWorkingHours specialsQ workQ date ⟨h1, m1, s1'⟩ ⟨h2, m2, s2'⟩) ∧
    IsTimeRangeWithinWorkingHours
      (.ok [{ ID := 1, Date := ⟨0⟩,
              Ranges := [{ Start := ⟨9, 0, 0⟩, End := ⟨13, 0, 0⟩ }], Active := true }])
      (.ok []) ⟨0⟩ ⟨12, 0, 0⟩ ⟨13, 0, 59⟩ = .ok true := by
  refine ⟨fun h m s1 s2 => rfl, fun specialsQ workQ date h1 m1 s1 s1' h2 m2 s2 s2' => rfl, rfl⟩

/-- C2: the effective-day resolver takes exactly one of the two paths.
With at least one special-day row the result is computed solely from
those rows (`isOverride = true`, the weekly query result is irrelevant —
in particular a date whose only row is inactive is closed whatever the
weekly schedule says); with no special-day row the result comes from the
weekly schedule with `isOverride = false`. -/
theorem getEffectiveDay_exclusive_paths (specials : List SpecialDay)
    (workQ workQ' : Except Err (List WorkDay)) (date : Date) :
    (specials ≠ [] →
      GetEffectiveDay (.ok specials) workQ date = GetEffectiveDay (.ok specials) workQ' date ∧
      ∃ eff, GetEffectiveDay (.ok specials) workQ date = .ok eff ∧
        eff.IsOverride = true ∧
        (eff.Active = true ↔ ∃ sd ∈ specials, sd.Active = true)) ∧
    (specials = [] → ∀ raw, workQ = .ok raw →
      ∃ eff, GetEffectiveDay (.ok specials) workQ date = .ok eff ∧
        eff.IsOverride = false) := by
  constructor
  · intro hne
    match specials with
    | [] => exact absurd rfl hne
    | sd0 :: rest =>
      exact ⟨rfl, ⟨_, rfl, rfl, List.any_eq_true⟩⟩
  · rintro rfl raw hw
    rw [hw]
    exact ⟨_, rfl, rfl⟩

/-- Witness for C2 at the spec's holiday scenario: the date's only
special-day row is inactive with no ranges, the weekly schedule for the
same date is open; the resolver ignores the weekly schedule (the result
is the same even if that query would have failed) and reports the day as
an inactive override. -/
theorem getEffectiveDay_exclusive_paths_witness :
    GetEffectiveDay (.ok holidaySpecials) (.ok mondayWorkDays) ⟨4⟩ =
      GetEffectiveDay (.ok holidaySpecials) (.error (.store "io")) ⟨4⟩ ∧
    ∃ eff, GetEffectiveDay (.ok holidaySpecials) (.ok mondayWorkDays) ⟨4⟩ = .ok eff ∧
      eff.IsOverride = true ∧
      (eff.Active = true ↔ ∃ sd ∈ holidaySpecials, sd.Active = true) :=
  (getEffectiveDay_exclusive_paths holidaySpecials
    (.ok mondayWorkDays) (.error (.store "io")) ⟨4⟩).1 (by simp [holidaySpecials])

/-- C7: for a date with special-day rows, the resolved day's range list
is sorted ascending by start time, is a permutation of exactly the
ranges of the rows whose active flag is true, and the day's active flag
is true iff at least one row is active. -/
theorem getEffectiveDay_override_ranges_sorted (specials : List SpecialDay)
    (workQ : Except Err (List WorkDay)) (date : Date) (h : specials ≠ []) :
    ∃ eff, GetEffectiveDay (.ok specials) workQ date = .ok eff ∧
      List.Sorted rangeLE eff.Ranges ∧
      eff.Ranges.Perm ((specials.filter (fun sd => sd.Active)).flatMap (fun sd => sd.Ranges)) ∧
      (eff.Active = true ↔ ∃ sd ∈ specials, sd.Active = true) := by
  match specials with
  | [] => exact absurd rfl h
  | sd0 :: rest =>
    exact ⟨_, rfl, List.sorted_insertionSort rangeLE _,
      List.perm_insertionSort rangeLE _, List.any_eq_true⟩

/-- Witness for C7: two active rows with out-of-order ranges and one
inactive row with a range; the resolved ranges are the two active rows'
ranges, sorted. -/
theorem getEffectiveDay_override_ranges_sorted_witness :
    ∃ eff, GetEffectiveDay (.ok multiRowSpecials) (.ok []) ⟨0⟩ = .ok eff ∧
      List.Sorted rangeLE eff.Ranges ∧
      eff.Ranges.Perm
        ((multiRowSpecials.filter (fun sd => sd.Active)).flatMap (fun sd => sd.Ranges)) ∧
      (eff.Active = true ↔ ∃ sd ∈ multiRowSpecials, sd.Active = true) :=
  getEffectiveDay_override_ranges_sorted multiRowSpecials (.ok []) ⟨0⟩
    (by simp [multiRowSpecials])

/-- C8: the weekday used for the weekly-fallback lookup is the native
library weekday with `0` (Sunday) mapped to `7` and every other value
unchanged; the lookup weekday is never `0`; and on a Sunday date the
weekly path resolves exactly against the rows with `DayOfWeek = 7`. -/
theorem weekday_conversion :
    (∀ date : Date, date.Weekday = 0 → effectiveWeekday date = 7) ∧
    (∀ date : Date, date.Weekday ≠ 0 → effectiveWeekday date = date.Weekday) ∧
    (∀ date : Date, effectiveWeekday date ≠ 0) ∧
    (∀ (date : Date) (wds : List WorkDay), date.Weekday = 0 →
      GetEffectiveDay (.ok []) (.ok wds) date =
        GetEffectiveDay (.ok []) (.ok (wds.filter (fun wd => wd.DayOfWeek = 7))) date) := by
  refine ⟨?_, ?_, ?_, ?_⟩
  · intro date h0
    simp [effectiveWeekday, h0]
  · intro date h0
    simp [effectiveWeekday, h0]
  · intro date
    simp only [effectiveWeekday]
    split <;> omega
  · intro date wds h0
    have h7 : effectiveWeekday date = 7 := by simp [effectiveWeekday, h0]
    simp only [GetEffectiveDay, h7]
    rw [List.filter_filter, List.any_filter]
    have e1 : (fun a : WorkDay =>
        (decide (a.DayOfWeek = (7 : Int)) && a.Active) && decide (a.DayOfWeek = (7 : Int))) =
        fun a : WorkDay => decide (a.DayOfWeek = (7 : Int)) && a.Active := by
      funext a
      by_cases h : a.DayOfWeek = (7 : Int) <;> simp [h]
    have e2 : (fun a : WorkDay =>
        decide (a.DayOfWeek = (7 : Int)) && (decide (a.DayOfWeek = (7 : Int)) && a.Active)) =
        fun a : WorkDay => decide (a.DayOfWeek = (7 : Int)) && a.Active := by
      funext a
      by_cases h : a.DayOfWeek = (7 : Int) <;> simp [h]
    rw [e1, e2]

/-- Witness for C8: day 0 is a Sunday (native weekday 0); it converts to
lookup weekday 7, and its weekly resolution only sees the
`DayOfWeek = 7` rows. -/
theorem weekday_conversion_witness :
    effectiveWeekday ⟨0⟩ = 7 ∧
    GetEffectiveDay (.ok []) (.ok mondayWorkDays) ⟨0⟩ =
      GetEffectiveDay (.ok [])
        (.ok (mondayWorkDays.filter (fun wd => wd.DayOfWeek = 7))) ⟨0⟩ :=
  ⟨weekday_conversion.1 ⟨0⟩ (by norm_num [Date.Weekday]),
   weekday_conversion.2.2.2 ⟨0⟩ mondayWorkDays (by norm_num [Date.Weekday])⟩

/-- C1: when the resolved effective day is active, the validator accepts
the interval `[s, e)` iff some effective range `r` has
`r.start ≤ s` and `e ≤ r.end` in minutes-since-midnight, and when no
range contains the interval (e.g. it straddles a gap between two
ranges) it fails with the out-of-hours conflict error. -/
theorem isWithin_iff_contained (specialsQ : Except Err (List SpecialDay))
    (workQ : Except Err (List WorkDay)) (date : Date) (s e : Tod)
    (eff : EffectiveDay)
    (heff : GetEffectiveDay specialsQ workQ date = .ok eff)
    (hact : eff.Active = true) :
    (IsTimeRangeWithinWorkingHours specialsQ workQ date s e = .ok true ↔
      ∃ r ∈ eff.Ranges, TimeOfDayMinutes r.Start ≤ TimeOfDayMinutes s ∧
        TimeOfDayMinutes e ≤ TimeOfDayMinutes r.End) ∧
    ((∀ r ∈ eff.Ranges, ¬(TimeOfDayMinutes r.Start ≤ TimeOfDayMinutes s ∧
        TimeOfDayMinutes e ≤ TimeOfDayMinutes r.End)) →
      IsTimeRangeWithinWorkingHours specialsQ workQ date s e =
        .error (.domain .conflict "El horario solicitado está fuera del horario laboral.")) := by
  have hany : (eff.Ranges.any (fun r =>
      decide (TimeOfDayMinutes s ≥ TimeOfDayMinutes r.Start) &&
      decide (TimeOfDayMinutes e ≤ TimeOfDayMinutes r.End)) = true) ↔
      ∃ r ∈ eff.Ranges, TimeOfDayMinutes r.Start ≤ TimeOfDayMinutes s ∧
        TimeOfDayMinutes e ≤ TimeOfDayMinutes r.End := by
    simp [List.any_eq_true, ge_iff_le]
  simp only [IsTimeRangeWithinWorkingHours, heff, hact]
  by_cases hc : eff.Ranges.any (fun r =>
      decide (TimeOfDayMinutes s ≥ TimeOfDayMinutes r.Start) &&
      decide (TimeOfDayMinutes e ≤ TimeOfDayMinutes r.End)) = true
  · constructor
    · simp only [hc]
      simp only [Bool.not_true, Bool.false_eq_true, if_false, if_true]
      exact ⟨fun _ => hany.mp hc, fun _ => trivial⟩
    · intro hall
      exfalso
      obtain ⟨r, hr, h1, h2⟩ := hany.mp hc
      exact hall r hr ⟨h1, h2⟩
  · constructor
    · simp only [Bool.not_eq_true] at hc
      simp only [hc]
      simp only [Bool.not_true, Bool.false_eq_true, if_false]
      constructor
      · intro h
        exact absurd h (by simp)
      · intro hE
        exact absurd (hany.mpr hE) (by simp [hc])
    · intro _
      simp only [Bool.not_eq_true] at hc
      simp only [hc]
      simp [if_neg]

/-- Witness for C1: a boundary-exact booking `[10:00, 13:00)` against an
active override day whose single range is `[9:00, 13:00)` is accepted
(`e` equals the range's closing boundary). -/
theorem isWithin_iff_contained_witness :
    IsTimeRangeWithinWorkingHours (.ok morningSpecials) (.ok []) ⟨0⟩
      ⟨10, 0, 0⟩ ⟨13, 0, 0⟩ = .ok true :=
  ((isWithin_iff_contained (.ok morningSpecials) (.ok []) ⟨0⟩ ⟨10, 0, 0⟩ ⟨13, 0, 0⟩
      { Date := ⟨0⟩, Ranges := [{ Start := ⟨9, 0, 0⟩, End := ⟨13, 0, 0⟩ }],
        IsOverride := true, Active := true }
      rfl rfl).1).mpr
    ⟨{ Start := ⟨9, 0, 0⟩, End := ⟨13, 0, 0⟩ }, by simp,
      by norm_num [TimeOfDayMinutes], by norm_num [TimeOfDayMinutes]⟩

/-- C5: when `Update` changes an appointment's date or duration, the
conflict scan excludes the appointment's own prior record by identity —
the update succeeds iff no appointment of that day with a different id
overlaps the new interval, and it fails with the conflict error iff some
such other appointment overlaps; the own record's interval never causes
a conflict against itself. -/
theorem update_excludes_own_record (env : ApptEnv) (id : Int)
    (appt : AppointmentUpdateDTO) (current : Appointment)
    (existing : List Appointment)
    (hid : 0 < id)
    (hdur : ∀ d, appt.Duracion = some d → 0 < d)
    (hchange : (appt.Fecha.isSome || appt.Duracion.isSome) = true)
    (hcur : env.getByID id = .ok current)
    (hwithin : env.isWithinBusinessHours (appt.Fecha.getD current.Fecha)
      (appt.Fecha.getD current.Fecha)
      (appt.Fecha.getD current.Fecha + appt.Duracion.getD current.Duracion) = .ok true)
    (hex : env.getBetween (StartOfClinicDay (appt.Fecha.getD current.Fecha))
      (StartOfClinicDay (appt.Fecha.getD current.Fecha) + 86400) = .ok existing)
    (hupd : env.updateRow = .ok ()) :
    (Update env id appt = .ok () ↔
      ∀ ex ∈ existing, ex.ID ≠ id →
        overlapsWithGap (appt.Fecha.getD current.Fecha)
          (appt.Fecha.getD current.Fecha + appt.Duracion.getD current.Duracion) ex = false) ∧
    (Update env id appt =
        .error (.wrap "AppointmentService.Update(time slot conflict)" .conflict) ↔
      ∃ ex ∈ existing, ex.ID ≠ id ∧
        overlapsWithGap (appt.Fecha.getD current.Fecha)
          (appt.Fecha.getD current.Fecha + appt.Duracion.getD current.Duracion) ex = true) := by
  have h1 : ¬ (id ≤ 0) := by omega
  have h2 : (match appt.Duracion with
      | some d => decide (d ≤ 0)
      | none => false) = false := by
    cases hD : appt.Duracion with
    | none => rfl
    | some d =>
      have := hdur d hD
      simp only []
      simp [show ¬ (d ≤ 0) by omega]
  simp only [Update, h1, h2, hchange, hcur, hwithin, hex, hupd, if_false, if_true,
    Bool.false_eq_true, Bool.not_true, reduceIte]
  have hCiff : ((existing.filter (fun ex => !decide (ex.ID = id))).any
      (overlapsWithGap (appt.Fecha.getD current.Fecha)
        (appt.Fecha.getD current.Fecha + appt.Duracion.getD current.Duracion)) = true) ↔
      ∃ ex ∈ existing, ex.ID ≠ id ∧
        overlapsWithGap (appt.Fecha.getD current.Fecha)
          (appt.Fecha.getD current.Fecha + appt.Duracion.getD current.Duracion) ex = true := by
    simp [List.any_eq_true, List.mem_filter, and_assoc]
  by_cases hC : (existing.filter (fun ex => !decide (ex.ID = id))).any
      (overlapsWithGap (appt.Fecha.getD current.Fecha)
        (appt.Fecha.getD current.Fecha + appt.Duracion.getD current.Duracion)) = true
  · rw [if_pos hC]
    constructor
    · constructor
      · intro h
        exact absurd h (by simp)
      · intro hall
        obtain ⟨ex, hmem, hne, hov⟩ := hCiff.mp hC
        rw [hall ex hmem hne] at hov
        exact absurd hov (by simp)
    · exact ⟨fun _ => hCiff.mp hC, fun _ => rfl⟩
  · rw [if_neg hC]
    constructor
    · constructor
      · intro _ ex hmem hne
        by_contra hov
        rw [Bool.not_eq_false] at hov
        exact hC (hCiff.mpr ⟨ex, hmem, hne, hov⟩)
      · intro _
        rfl
    · constructor
      · intro h
        exact absurd h (by simp)
      · intro hE
        exact absurd (hCiff.mpr hE) hC

/-- Witness for C5: updating appointment 5 to the very interval its own
stored record occupies succeeds — the own record (which overlaps the new
interval) is excluded by identity, and the other stored appointment does
not overlap. -/
theorem update_excludes_own_record_witness :
    Update apptEnvExample 5 { Fecha := some 1000, Duracion := some 900 } = .ok () :=
  (update_excludes_own_record apptEnvExample 5
      { Fecha := some 1000, Duracion := some 900 }
      { ID := 5, Fecha := 1000, Duracion := 900 } dayAppointments
      (by norm_num)
      (by intro d h; injection h with h; omega)
      rfl rfl rfl rfl rfl).1.mpr (by decide)

/-- Every slot emitted by the slot loop ends at or before the window
close. -/
theorem slotLoop_end_le (appointments : List Appointment) (d stop : Int) :
    ∀ (fuel : Nat) (current : Int), ∀ s ∈ slotLoop appointments d stop fuel current,
      s.End ≤ stop := by
  intro fuel
  induction fuel with
  | zero =>
    intro current s hs
    simp [slotLoop] at hs
  | succ n ih =>
    intro current s hs
    rw [slotLoop] at hs
    by_cases h : current < stop ∧ current + d ≤ stop
    · rw [if_pos h] at hs
      rcases List.mem_cons.mp hs with rfl | hs'
      · exact h.2
      · exact ih _ s hs'
    · rw [if_neg h] at hs
      simp at hs

/-- C6: `GetAvailableSlots` never emits a slot ending past the fixed
18:00 close of the requested date; a non-positive requested duration is
replaced by the 900-second default; and an open day with no appointments
yields exactly 40 slots at 900 seconds over the 08:00–18:00 window, all
available. -/
theorem getAvailableSlots_window_default_count :
    (∀ (isOpenQ : Except Err Bool) (apptsQ : Except Err (List Appointment))
        (date : Date) (dur : Int) (slots : List AvailabilitySlot),
      GetAvailableSlots isOpenQ apptsQ date dur = .ok slots →
      ∀ s ∈ slots, s.End ≤ date.serial * 86400 + 18 * 3600) ∧
    (∀ (isOpenQ : Except Err Bool) (apptsQ : Except Err (List Appointment))
        (date : Date) (dur : Int), dur ≤ 0 →
      GetAvailableSlots isOpenQ apptsQ date dur =
        GetAvailableSlots isOpenQ apptsQ date 900) ∧
    (∃ slots, GetAvailableSlots (.ok true) (.ok []) ⟨0⟩ 900 = .ok slots ∧
      slots.length = 40 ∧ slots.all (fun s => s.Available) = true) := by
  refine ⟨?_, ?_, ?_⟩
  · intro isOpenQ apptsQ date dur slots hok s hs
    cases isOpenQ with
    | error e => simp [GetAvailableSlots] at hok
    | ok isOpen =>
      cases isOpen with
      | false =>
        simp [GetAvailableSlots] at hok
        subst hok
        simp at hs
      | true =>
        cases apptsQ with
        | error e => simp [GetAvailableSlots] at hok
        | ok appointments =>
          simp only [GetAvailableSlots, Bool.not_true, Bool.false_eq_true, if_false,
            reduceIte, Except.ok.injEq] at hok
          subst hok
          exact slotLoop_end_le appointments _ _ _ _ s hs
  · intro isOpenQ apptsQ date dur hle
    simp only [GetAvailableSlots]
    rw [if_pos hle, if_neg (by norm_num : ¬ ((900 : Int) ≤ 0))]
  · exact ⟨_, rfl, rfl, rfl⟩

/-- Witness for C6: a negative requested duration is treated as the
900-second default. -/
theorem getAvailableSlots_window_default_count_witness :
    GetAvailableSlots (.ok true) (.ok []) ⟨0⟩ (-5) =
      GetAvailableSlots (.ok true) (.ok []) ⟨0⟩ 900 :=
  getAvailableSlots_window_default_count.2.1 (.ok true) (.ok []) ⟨0⟩ (-5)
    (by norm_num)

end HealthcareCRM

